/-
  Verification of the key-handling core (`keylib.go`) of in-toto.golang.

  The Go source is shallowly embedded: pure helpers become Lean functions,
  the external collaborators (PEM/X.509 parsing, RSA-PSS primitives, the
  Ed25519 primitive, JSON decoding, file I/O) become explicit parameters,
  and machine bytes become `Nat` values below 256.  SHA-256, Go's
  `encoding/hex` codec and `strings.TrimSpace` are embedded concretely.
-/
import Mathlib

namespace InToto

/-! ## Bytes and lowercase hex (Go `encoding/hex`) -/

/-- The lowercase hexadecimal digit for `n < 16`, as produced by Go's
`encoding/hex` and by `fmt.Sprintf "%x"`. -/
def hexDigitChar (n : Nat) : Char :=
  if n < 10 then Char.ofNat (48 + n) else Char.ofNat (87 + n)

/-- The two lowercase hex digits of one byte. -/
def byteHex (b : Nat) : List Char :=
  [hexDigitChar (b / 16), hexDigitChar (b % 16)]

/-- Lowercase hex rendering of a byte sequence; embeds both
`hex.EncodeToString` and `fmt.Sprintf("%x", digest)`. -/
def bytesToHex (bs : List Nat) : String :=
  ⟨bs.foldr (fun b acc => byteHex b ++ acc) []⟩

/-- Go's `encoding/hex` `fromHexChar`: value of one hex digit,
accepting `0-9`, `a-f` and `A-F`. -/
def fromHexChar (c : Char) : Option Nat :=
  let n := c.toNat
  if 48 ≤ n ∧ n ≤ 57 then some (n - 48)
  else if 97 ≤ n ∧ n ≤ 102 then some (n - 87)
  else if 65 ≤ n ∧ n ≤ 70 then some (n - 55)
  else none

/-- Error message for an invalid byte, standing for Go's
`hex.InvalidByteError`. -/
def hexInvalidByteMsg : String := "encoding/hex: invalid byte"

/-- Error message standing for Go's `hex.ErrLength`. -/
def hexLengthMsg : String := "encoding/hex: odd length hex string"

/-- Go's `hex.Decode` over a character list: decodes pairs of hex digits
until the input ends or a bad character is met; returns the bytes decoded
BEFORE the failing pair together with the error, exactly as the Go
function does (`return i, InvalidByteError(...)` / `ErrLength`). -/
def hexDecodeChars : List Char → List Nat × Option String
  | [] => ([], none)
  | [c] =>
    ([], if (fromHexChar c).isSome then some hexLengthMsg else some hexInvalidByteMsg)
  | p :: q :: rest =>
    match fromHexChar p, fromHexChar q with
    | some a, some b =>
      let r := hexDecodeChars rest
      ((a * 16 + b) :: r.1, r.2)
    | _, _ => ([], some hexInvalidByteMsg)

/-- Go's `hex.DecodeString`: the decoded prefix plus the error, if any. -/
def hexDecodeString (s : String) : List Nat × Option String :=
  hexDecodeChars s.data

/-! ## UTF-8 bytes of a string (Go `[]byte(s)`)-/

/-- The UTF-8 bytes of one character. -/
def charUtf8 (c : Char) : List Nat :=
  let n := c.toNat
  if n < 128 then [n]
  else if n < 2048 then [192 + n / 64, 128 + n % 64]
  else if n < 65536 then [224 + n / 4096, 128 + (n / 64) % 64, 128 + n % 64]
  else [240 + n / 262144, 128 + (n / 4096) % 64, 128 + (n / 64) % 64, 128 + n % 64]

/-- The UTF-8 bytes of a string, Go's `[]byte(s)`. -/
def strBytes (s : String) : List Nat :=
  s.data.foldr (fun c acc => charUtf8 c ++ acc) []

/-! ## `strings.TrimSpace` -/

/-- Whitespace as trimmed by Go's `strings.TrimSpace` (ASCII part of
`unicode.IsSpace`). -/
def isSpaceByte (c : Char) : Bool :=
  c == ' ' || c == '\t' || c == '\n' || c == '\r' ||
  c == Char.ofNat 11 || c == Char.ofNat 12

/-- Go's `strings.TrimSpace`: removes leading and trailing whitespace. -/
def trimSpace (s : String) : String :=
  ⟨((s.data.dropWhile isSpaceByte).reverse.dropWhile isSpaceByte).reverse⟩

/-! ## SHA-256 (Go `crypto/sha256`), embedded concretely -/

namespace SHA256

/-- The 64 SHA-256 round constants of FIPS 180-4, written in decimal. -/
def K : List Nat :=
  [1116352408, 1899447441, 3049323471, 3921009573, 961987163,
   1508970993, 2453635748, 2870763221, 3624381080, 310598401,
   607225278, 1426881987, 1925078388, 2162078206, 2614888103,
   3248222580, 3835390401, 4022224774, 264347078, 604807628,
   770255983, 1249150122, 1555081692, 1996064986, 2554220882,
   2821834349, 2952996808, 3210313671, 3336571891, 3584528711,
   113926993, 338241895, 666307205, 773529912, 1294757372,
   1396182291, 1695183700, 1986661051, 2177026350, 2456956037,
   2730485921, 2820302411, 3259730800, 3345764771, 3516065817,
   3600352804, 4094571909, 275423344, 430227734, 506948616,
   659060556, 883997877, 958139571, 1322822218, 1537002063,
   1747873779, 1955562222, 2024104815, 2227730452, 2361852424,
   2428436474, 2756734187, 3204031479, 3329325298]

/-- The SHA-256 initial hash value of FIPS 180-4, written in decimal. -/
def H0 : List Nat :=
  [1779033703, 3144134277, 1013904242, 2773480762, 1359893119,
   2600822924, 528734635, 1541459225]

/-- Right rotation of a 32-bit word. -/
def rotr (n x : Nat) : Nat := ((x >>> n) ||| (x <<< (32 - n))) % 2 ^ 32

/-- SHA-256 Σ0. -/
def bigSigma0 (x : Nat) : Nat := rotr 2 x ^^^ rotr 13 x ^^^ rotr 22 x

/-- SHA-256 Σ1. -/
def bigSigma1 (x : Nat) : Nat := rotr 6 x ^^^ rotr 11 x ^^^ rotr 25 x

/-- SHA-256 σ0. -/
def smallSigma0 (x : Nat) : Nat := rotr 7 x ^^^ rotr 18 x ^^^ (x >>> 3)

/-- SHA-256 σ1. -/
def smallSigma1 (x : Nat) : Nat := rotr 17 x ^^^ rotr 19 x ^^^ (x >>> 10)

/-- SHA-256 Ch. -/
def ch (x y z : Nat) : Nat := (x &&& y) ^^^ ((x ^^^ 0xffffffff) &&& z)

/-- SHA-256 Maj. -/
def maj (x y z : Nat) : Nat := (x &&& y) ^^^ (x &&& z) ^^^ (y &&& z)

/-- Big-endian 8-byte rendering of the bit length. -/
def lenBytes (n : Nat) : List Nat :=
  [(n >>> 56) % 256, (n >>> 48) % 256, (n >>> 40) % 256, (n >>> 32) % 256,
   (n >>> 24) % 256, (n >>> 16) % 256, (n >>> 8) % 256, n % 256]

/-- SHA-256 padding: append `0x80`, zeros to 56 mod 64, then the 64-bit
big-endian bit length. -/
def pad (msg : List Nat) : List Nat :=
  let L := msg.length
  msg ++ [128] ++ List.replicate ((120 - ((L + 1) % 64)) % 64) 0 ++ lenBytes (8 * L)

/-- Assemble `n` big-endian 32-bit words from a byte list. -/
def toWords : Nat → List Nat → List Nat
  | 0, _ => []
  | n + 1, l =>
    (l.getD 0 0 * 2 ^ 24 + l.getD 1 0 * 2 ^ 16 + l.getD 2 0 * 2 ^ 8 + l.getD 3 0)
      :: toWords n (l.drop 4)

/-- Extend the 16-word schedule by `fuel` further words. -/
def extendW (w : Array Nat) : Nat → Array Nat
  | 0 => w
  | n + 1 =>
    let t := w.size
    let nw := (smallSigma1 (w.getD (t - 2) 0) + w.getD (t - 7) 0 +
               smallSigma0 (w.getD (t - 15) 0) + w.getD (t - 16) 0) % 2 ^ 32
    extendW (w.push nw) n

/-- One chain of compression rounds starting at round `t`. -/
def rounds (w : Array Nat) (st : List Nat) (t : Nat) : Nat → List Nat
  | 0 => st
  | n + 1 =>
    let a := st.getD 0 0
    let b := st.getD 1 0
    let c := st.getD 2 0
    let d := st.getD 3 0
    let e := st.getD 4 0
    let f := st.getD 5 0
    let g := st.getD 6 0
    let h := st.getD 7 0
    let T1 := (h + bigSigma1 e + ch e f g + K.getD t 0 + w.getD t 0) % 2 ^ 32
    let T2 := (bigSigma0 a + maj a b c) % 2 ^ 32
    rounds w [(T1 + T2) % 2 ^ 32, a, b, c, (d + T1) % 2 ^ 32, e, f, g] (t + 1) n

/-- Compress one 64-byte block into the chaining state. -/
def compress (h : List Nat) (block : List Nat) : List Nat :=
  let w := extendW (Array.mk (toWords 16 block)) 48
  let st := rounds w h 0 64
  List.zipWith (fun x y => (x + y) % 2 ^ 32) h st

/-- Split a padded message into 64-byte blocks (`n` of them). -/
def blocks : Nat → List Nat → List (List Nat)
  | 0, _ => []
  | n + 1, l => l.take 64 :: blocks n (l.drop 64)

/-- The four big-endian bytes of a 32-bit word. -/
def wordBytes (w : Nat) : List Nat :=
  [(w >>> 24) % 256, (w >>> 16) % 256, (w >>> 8) % 256, w % 256]

/-- SHA-256 digest of a byte sequence, as 32 bytes. -/
def sha256 (msg : List Nat) : List Nat :=
  let p := pad msg
  let hf := (blocks (p.length / 64) p).foldl compress H0
  hf.foldr (fun w acc => wordBytes w ++ acc) []

end SHA256

/-! ## Canonical JSON (the Canonicalizer collaborator)

`EncodeCanonical` lives in this repository but outside the verified file,
so it is modelled from the specification. -/

/-- JSON values as they occur in key-identity payloads: strings, arrays
and objects (no numbers or booleans are ever put in the payload). -/
inductive Json where
  | str : String → Json
  | arr : List Json → Json
  | obj : List (String × Json) → Json

mutual

/-- Number of constructors in a JSON value; bounds its nesting depth. -/
def jsonSize : Json → Nat
  | .str _ => 1
  | .arr xs => 1 + jsonListSize xs
  | .obj fs => 1 + jsonFieldsSize fs

/-- Total size of an array's elements. -/
def jsonListSize : List Json → Nat
  | [] => 0
  | x :: xs => jsonSize x + jsonListSize xs

/-- Total size of an object's field values. -/
def jsonFieldsSize : List (String × Json) → Nat
  | [] => 0
  | (_, v) :: ps => jsonSize v + jsonFieldsSize ps

end

/-- Canonical-JSON string token: the text in double quotes with only
backslash and double quote escaped. -/
def canonStr (s : String) : String :=
  ⟨'"' :: (s.data.foldr
    (fun c acc => if c = '"' ∨ c = '\\' then '\\' :: c :: acc else c :: acc)
    ['"'])⟩

/-- Insert one field into a key-sorted field list. -/
def insertField (p : String × Json) : List (String × Json) → List (String × Json)
  | [] => [p]
  | q :: qs => if p.1 ≤ q.1 then p :: q :: qs else q :: insertField p qs

/-- Sort an object's fields by key (insertion sort). -/
def sortFields : List (String × Json) → List (String × Json)
  | [] => []
  | p :: ps => insertField p (sortFields ps)

/-- Interpose commas. -/
def commaSep : List String → String
  | [] => ""
  | [x] => x
  | x :: xs => x ++ "," ++ commaSep xs

/-- Modelled from the spec: the Canonicalizer collaborator
(`encode_canonical`) renders a mapping deterministically — object keys
sorted, no whitespace, strings with minimal escaping.  Recursion is by a
fuel bounded below by `sizeOf`, which dominates the nesting depth. -/
def encodeJsonF : Nat → Json → String
  | 0, _ => ""
  | _ + 1, .str s => canonStr s
  | n + 1, .arr xs => "[" ++ commaSep (xs.map (encodeJsonF n)) ++ "]"
  | n + 1, .obj fs =>
    "\x7b" ++
      commaSep ((sortFields fs).map (fun p => canonStr p.1 ++ ":" ++ encodeJsonF n p.2)) ++
      "\x7d"

/-- Modelled from the spec: `EncodeCanonical(value) -> bytes`, the
deterministic serialization used for key-identity hashing.  It is total
on the payload values this file builds (strings, string lists and nested
string maps), matching the spec's note that canonicalization does not
fail for well-formed keys. -/
def EncodeCanonical (j : Json) : Except String (List Nat) :=
  .ok (strBytes (encodeJsonF (jsonSize j) j))

/-! ## Data model (`Key`, `KeyVal`, `Signature`) -/

/-- Go struct `KeyVal`: the key material strings. -/
structure KeyVal where
  Private : String
  Public : String
deriving DecidableEq

/-- Go struct `Key`. -/
structure Key where
  KeyId : String
  KeyIdHashAlgorithms : List String
  KeyType : String
  Scheme : String
  KeyVal : KeyVal
deriving DecidableEq

/-- Go struct `Signature`. -/
structure Signature where
  KeyId : String
  Sig : String
deriving DecidableEq

/-! ## Key identity (`GenerateKeyId`) -/

/-- The partial key map built inside `GenerateKeyId`: exactly the four
entries `keytype`, `scheme`, `keyid_hash_algorithms` and `keyval`, the
last holding only `public`. -/
def keyIdPayload (k : Key) : Json :=
  .obj [("keytype", .str k.KeyType),
        ("scheme", .str k.Scheme),
        ("keyid_hash_algorithms", .arr (k.KeyIdHashAlgorithms.map .str)),
        ("keyval", .obj [("public", .str k.KeyVal.Public)])]

/-- Go `func (k *Key) GenerateKeyId() error`: canonicalize the partial key
map, hash it with SHA-256 and store the lowercase-hex digest in
`k.KeyId`.  The receiver mutation is modelled by returning the updated
key. -/
def GenerateKeyId (k : Key) : Except String Key :=
  match EncodeCanonical (keyIdPayload k) with
  | .error e => .error e
  | .ok keyCanonical => .ok { k with KeyId := bytesToHex (SHA256.sha256 keyCanonical) }

/-- The key id `GenerateKeyId` assigns, as a plain function. -/
def keyIdOf (k : Key) : String :=
  bytesToHex (SHA256.sha256 (strBytes (encodeJsonF (jsonSize (keyIdPayload k)) (keyIdPayload k))))

/-- The sixteen lowercase hex digit characters. -/
def lowercaseHexChars : List Char := "0123456789abcdef".data

/-! ## Ed25519 key objects (`ParseEd25519From*JSON`) -/

/-- One character of a hex string as accepted by the repository's
hex-string validation (`[a-fA-F0-9]`). -/
def isHexChar (c : Char) : Bool :=
  ('0' ≤ c && c ≤ '9') || ('a' ≤ c && c ≤ 'f') || ('A' ≤ c && c ≤ 'F')

/-- A nonempty string of hex characters. -/
def validHexString (s : String) : Bool :=
  !s.data.isEmpty && s.data.all isHexChar

/-- Error message of the modelled hex-string validation. -/
def invalidHexMsg : String := "the key material is not a valid hex string"

/-- Modelled from the spec: `validatePrivateKey`, called by
`ParseEd25519FromPrivateJSON` but defined outside the verified source
file.  Per the spec it validates the structural well-formedness (the
shape) of `keyval.private`: the private value must be a hex string. -/
def validatePrivateKey (k : Key) : Except String Unit :=
  if validHexString k.KeyVal.Private then .ok () else .error invalidHexMsg

/-- Modelled from the spec: `validatePubKey`, called by
`ParseEd25519FromPublicJSON` but defined outside the verified source
file.  It validates the shape of `keyval.public`: a hex string. -/
def validatePubKey (k : Key) : Except String Unit :=
  if validHexString k.KeyVal.Public then .ok () else .error invalidHexMsg

/-- Error message of Go `json.Unmarshal` failure in the parsers
(the spec's `FormatError` for invalid JSON). -/
def notJsonMsg : String := "this is not a valid JSON key object"

/-- Error message for a non-ed25519 `keytype`/`scheme`
(the spec's `KeyTypeError`). -/
def notEd25519Msg : String := "this doesn't appear to be an ed25519 key"

/-- Error message for a bad private length (the spec's `FormatError`). -/
def privateMalformedMsg : String := "the private field on this key is malformed"

/-- Error message for a bad public length (the spec's `FormatError`). -/
def publicMalformedMsg : String := "the public field on this key is malformed"

/-- Go `ParseEd25519FromPrivateJSON`.  Here `dec` stands for the external
`json.Unmarshal` into a `Key`; the Go length check `len(...) != 64` is
over the string's characters, which agrees with Go's byte length on the
hex strings that survive validation. -/
def ParseEd25519FromPrivateJSON (dec : String → Except String Key)
    (JSONString : String) : Except String Key :=
  match dec JSONString with
  | .error _ => .error notJsonMsg
  | .ok keyObj =>
    if keyObj.KeyType ≠ "ed25519" ∨ keyObj.Scheme ≠ "ed25519" then
      .error notEd25519Msg
    else
      match (if keyObj.KeyId = "" then GenerateKeyId keyObj else .ok keyObj) with
      | .error e => .error e
      | .ok keyObj =>
        match validatePrivateKey keyObj with
        | .error e => .error e
        | .ok _ =>
          if keyObj.KeyVal.Private.length ≠ 64 then .error privateMalformedMsg
          else .ok keyObj

/-- Go `ParseEd25519FromPublicJSON`. -/
def ParseEd25519FromPublicJSON (dec : String → Except String Key)
    (JSONString : String) : Except String Key :=
  match dec JSONString with
  | .error _ => .error notJsonMsg
  | .ok keyObj =>
    if keyObj.KeyType ≠ "ed25519" ∨ keyObj.Scheme ≠ "ed25519" then
      .error notEd25519Msg
    else
      match (if keyObj.KeyId = "" then GenerateKeyId keyObj else .ok keyObj) with
      | .error e => .error e
      | .ok keyObj =>
        match validatePubKey keyObj with
        | .error e => .error e
        | .ok _ =>
          if keyObj.KeyVal.Public.length ≠ 64 then .error publicMalformedMsg
          else .ok keyObj

/-! ## Ed25519 signing and verification -/

/-- Outcome of a Go call that may return normally, return an error, or
abort the process (a Go `panic`). -/
inductive GoOutcome (α : Type) where
  | ok : α → GoOutcome α
  | err : String → GoOutcome α
  | aborted : String → GoOutcome α
deriving DecidableEq

/-- The external `golang.org/x/crypto/ed25519` primitive: key expansion,
signing and the verification predicate.  Its documented abort conditions
(bad seed / public key length) are placed in the embedded callers. -/
structure Ed25519Impl where
  newKeyFromSeed : List Nat → List Nat
  sign : List Nat → List Nat → List Nat
  verify : List Nat → List Nat → List Nat → Bool

/-- Abort message of `ed25519.NewKeyFromSeed` on a seed whose length is
not 32, per its documented contract. -/
def badSeedMsg : String := "ed25519: bad seed length"

/-- Abort message of `ed25519.Verify` on a public key whose length is
not 32, per its documented contract. -/
def badPubLenMsg : String := "ed25519: bad public key length"

/-- Go `GenerateEd25519Signature`: hex-decode the private value into a
seed, expand it, sign the payload, hex-encode the result.  The
underlying `NewKeyFromSeed` aborts when the decoded seed is not 32
bytes; the source does not guard against that. -/
def GenerateEd25519Signature (impl : Ed25519Impl) (signable : List Nat)
    (key : Key) : GoOutcome Signature :=
  match hexDecodeString key.KeyVal.Private with
  | (_, some e) => .err e
  | (seed, none) =>
    if seed.length ≠ 32 then .aborted badSeedMsg
    else
      let privkey := impl.newKeyFromSeed seed
      .ok { KeyId := key.KeyId, Sig := bytesToHex (impl.sign privkey signable) }

/-- Go `VerifyEd25519Signature`: hex-decode the public value and the
signature (both errors are checked), then call `ed25519.Verify`, which
aborts when the public key is not 32 bytes; the source does not guard
against that. -/
def VerifyEd25519Signature (impl : Ed25519Impl) (key : Key)
    (sig : Signature) (data : List Nat) : GoOutcome Unit :=
  match hexDecodeString key.KeyVal.Public with
  | (_, some e) => .err e
  | (pubHex, none) =>
    match hexDecodeString sig.Sig with
    | (_, some e) => .err e
    | (sigHex, none) =>
      if pubHex.length ≠ 32 then .aborted badPubLenMsg
      else if impl.verify pubHex data sigHex then .ok ()
      else .err "invalid ed25519 signature"

/-! ## RSA signing and verification -/

/-- A digest algorithm tag (Go `crypto.Hash`). -/
inductive HashAlg where
  | SHA256
deriving DecidableEq

/-- Go `rsa.PSSOptions`. -/
structure PSSOptions where
  SaltLength : Nat
  Hash : HashAlg
deriving DecidableEq

/-- Go `sha256.Size`. -/
def sha256Size : Nat := 32

/-- The external RSA collaborators: PEM/X.509 parsing
(`ParseRSAPublicKeyFromPEM` / `ParseRSAPrivateKeyFromPEM` bottom out in
`pem.Decode` and `x509` parsing), SPKI marshalling, PEM encoding, and
the `rsa.SignPSS` / `rsa.VerifyPSS` primitives. -/
structure RSAExt (Pub Priv : Type) where
  parsePubPEM : String → Except String Pub
  parsePrivPEM : String → Except String Priv
  marshalPKIX : Priv → Except String (List Nat)
  encodePEMPub : List Nat → String
  signPSS : Priv → HashAlg → List Nat → PSSOptions → Except String (List Nat)
  verifyPSS : Pub → HashAlg → List Nat → List Nat → PSSOptions → Except String Unit

/-- Go `GenerateRSASignature`: parse the private PEM, hash the payload with
SHA-256, sign with PSS using SHA-256 and salt length `sha256.Size`,
return the hex signature tagged with the key's id.  (Reading the
in-memory `strings.Reader` never fails and is elided.) -/
def GenerateRSASignature {Pub Priv : Type} (ext : RSAExt Pub Priv)
    (signable : List Nat) (key : Key) : Except String Signature :=
  match ext.parsePrivPEM key.KeyVal.Private with
  | .error e => .error e
  | .ok rsaPriv =>
    let hashed := SHA256.sha256 signable
    match ext.signPSS rsaPriv HashAlg.SHA256 hashed ⟨sha256Size, HashAlg.SHA256⟩ with
    | .error e => .error e
    | .ok signatureBuffer =>
      .ok { KeyId := key.KeyId, Sig := bytesToHex signatureBuffer }

/-- Go `VerifyRSASignature`: parse the public PEM, hash the payload, and
check PSS validity with SHA-256 and salt length `sha256.Size`.  The
source reads `sigHex, _ := hex.DecodeString(sig.Sig)`: the hex-decode
error is DISCARDED and only the decoded prefix reaches `rsa.VerifyPSS`;
the embedding mirrors that with `.1`. -/
def VerifyRSASignature {Pub Priv : Type} (ext : RSAExt Pub Priv)
    (key : Key) (sig : Signature) (data : List Nat) : Except String Unit :=
  match ext.parsePubPEM key.KeyVal.Public with
  | .error e => .error e
  | .ok rsaPub =>
    let hashed := SHA256.sha256 data
    let sigHex := (hexDecodeString sig.Sig).1
    match ext.verifyPSS rsaPub HashAlg.SHA256 hashed sigHex ⟨sha256Size, HashAlg.SHA256⟩ with
    | .error e => .error e
    | .ok _ => .ok ()

/-! ## Key loaders

File access is embedded as the outcome triple of `os.Open`,
`ioutil.ReadAll` and the deferred `Close`.  The Go loaders `defer` a
close whose error, when present, REPLACES the function's error result
(`if closeErr != nil then err = closeErr`); mutations of the receiver
made before that point survive. -/

/-- Outcomes of the file operations performed by one loader call. -/
structure FileAccess where
  openRes : Except String Unit
  readRes : Except String String
  closeErr : Option String

/-- The deferred `Close` of the loaders: a close error replaces the
error result; the key state is whatever the body left. -/
def withClose (fa : FileAccess) (body : Key × Option String) : Key × Option String :=
  match fa.closeErr with
  | some ce => (body.1, some ce)
  | none => body

/-- Go `func (k *Key) LoadRSAPublicKey(path string)`: read the file,
validate it parses as an RSA public key (result discarded), then fill
the receiver with the hardcoded defaults, the trimmed ORIGINAL file
text as `keyval.public`, and a fresh key id. -/
def LoadRSAPublicKey {Pub Priv : Type} (ext : RSAExt Pub Priv)
    (fa : FileAccess) (k : Key) : Key × Option String :=
  match fa.openRes with
  | .error e => (k, some e)
  | .ok _ =>
    withClose fa
      (match fa.readRes with
       | .error e => (k, some e)
       | .ok keyBytes =>
         match ext.parsePubPEM keyBytes with
         | .error e => (k, some e)
         | .ok _ =>
           let k1 : Key := { k with
             KeyType := "rsa",
             KeyVal := { Private := "", Public := trimSpace keyBytes },
             Scheme := "rsassa-pss-sha256",
             KeyIdHashAlgorithms := ["sha256", "sha512"] }
           match GenerateKeyId k1 with
           | .error e => (k1, some e)
           | .ok k2 => (k2, none))

/-- Go `func (k *Key) LoadRSAPrivateKey(path string)`: read the file, parse
the private key, re-derive the public key, marshal and PEM-re-encode it,
then fill the receiver: `keyval.public` is the trimmed re-encoded PEM,
`keyval.private` the trimmed original file text. -/
def LoadRSAPrivateKey {Pub Priv : Type} (ext : RSAExt Pub Priv)
    (fa : FileAccess) (k : Key) : Key × Option String :=
  match fa.openRes with
  | .error e => (k, some e)
  | .ok _ =>
    withClose fa
      (match fa.readRes with
       | .error e => (k, some e)
       | .ok privateKeyBytes =>
         match ext.parsePrivPEM privateKeyBytes with
         | .error e => (k, some e)
         | .ok privateKey =>
           match ext.marshalPKIX privateKey with
           | .error e => (k, some e)
           | .ok pubKeyBytes =>
             let publicKeyPemBlockBytes := ext.encodePEMPub pubKeyBytes
             let k1 : Key := { k with
               KeyType := "rsa",
               KeyVal := { Private := trimSpace privateKeyBytes,
                           Public := trimSpace publicKeyPemBlockBytes },
               Scheme := "rsassa-pss-sha256",
               KeyIdHashAlgorithms := ["sha256", "sha512"] }
             match GenerateKeyId k1 with
             | .error e => (k1, some e)
             | .ok k2 => (k2, none))

/-- Go `func (k *Key) LoadEd25519PublicKey(path string)`: read the file,
parse via `ParseEd25519FromPublicJSON`, copy all five fields of the
parsed key onto the receiver. -/
def LoadEd25519PublicKey (dec : String → Except String Key)
    (fa : FileAccess) (k : Key) : Key × Option String :=
  match fa.openRes with
  | .error e => (k, some e)
  | .ok _ =>
    withClose fa
      (match fa.readRes with
       | .error e => (k, some e)
       | .ok keyBytes =>
         match ParseEd25519FromPublicJSON dec keyBytes with
         | .error e => (k, some e)
         | .ok keyObj =>
           ({ k with
              KeyId := keyObj.KeyId,
              KeyType := keyObj.KeyType,
              KeyIdHashAlgorithms := keyObj.KeyIdHashAlgorithms,
              KeyVal := keyObj.KeyVal,
              Scheme := keyObj.Scheme }, none))

/-- Go `func (k *Key) LoadEd25519PrivateKey(path string)`: as the public
loader, via `ParseEd25519FromPrivateJSON`. -/
def LoadEd25519PrivateKey (dec : String → Except String Key)
    (fa : FileAccess) (k : Key) : Key × Option String :=
  match fa.openRes with
  | .error e => (k, some e)
  | .ok _ =>
    withClose fa
      (match fa.readRes with
       | .error e => (k, some e)
       | .ok keyBytes =>
         match ParseEd25519FromPrivateJSON dec keyBytes with
         | .error e => (k, some e)
         | .ok keyObj =>
           ({ k with
              KeyId := keyObj.KeyId,
              KeyType := keyObj.KeyType,
              KeyIdHashAlgorithms := keyObj.KeyIdHashAlgorithms,
              KeyVal := keyObj.KeyVal,
              Scheme := keyObj.Scheme }, none))

/-! ## Concrete instantiations used to evaluate the embedding -/

/-- The zero value of `Key`, the state of a fresh `var key Key`. -/
def emptyKey : Key :=
  { KeyId := "", KeyIdHashAlgorithms := [], KeyType := "", Scheme := "",
    KeyVal := { Private := "", Public := "" } }

/-- A concrete instantiation of the RSA externals: parsing always
succeeds, and PSS verification accepts exactly the signature byte
`[171]` (as a real verifier accepts exactly the valid signatures). -/
def trivialRSAExt : RSAExt Unit Unit where
  parsePubPEM := fun _ => .ok ()
  parsePrivPEM := fun _ => .ok ()
  marshalPKIX := fun _ => .ok [1, 2, 3]
  encodePEMPub := fun _ => "-----BEGIN PUBLIC KEY----- -----END PUBLIC KEY-----"
  signPSS := fun _ _ _ _ => .ok [7]
  verifyPSS := fun _ _ _ s _ =>
    if s = [171] then .ok () else .error "crypto/rsa: verification error"

/-- A concrete instantiation of the Ed25519 primitive: the expanded key
doubles the seed (so the public half equals the seed, of length 32) and
verification accepts everything. -/
def trivialEd25519Impl : Ed25519Impl where
  newKeyFromSeed := fun s => s ++ s
  sign := fun _ _ => [7]
  verify := fun _ _ _ => true

/-! ## Supporting lemmas -/

theorem rounds_length (w : Array Nat) :
    ∀ (fuel : Nat) (st : List Nat) (t : Nat), st.length = 8 →
      (SHA256.rounds w st t fuel).length = 8 := by
  intro fuel
  induction fuel with
  | zero => intro st t h; simpa [SHA256.rounds] using h
  | succ n ih =>
    intro st t h
    simp only [SHA256.rounds]
    exact ih _ _ (by simp)

theorem compress_length (h block : List Nat) (hl : h.length = 8) :
    (SHA256.compress h block).length = 8 := by
  have hr := rounds_length (SHA256.extendW (Array.mk (SHA256.toWords 16 block)) 48) 64 h 0 hl
  simp [SHA256.compress, hl, hr]

theorem foldl_compress_length :
    ∀ (bs : List (List Nat)) (h : List Nat), h.length = 8 →
      (bs.foldl SHA256.compress h).length = 8 := by
  intro bs
  induction bs with
  | nil => intro h hh; simpa using hh
  | cons b bs ih => intro h hh; exact ih _ (compress_length _ _ hh)

theorem foldr_wordBytes_length (l : List Nat) :
    (l.foldr (fun w acc => SHA256.wordBytes w ++ acc) []).length = 4 * l.length := by
  induction l with
  | nil => simp
  | cons x xs ih =>
    have h4 : (SHA256.wordBytes x).length = 4 := rfl
    rw [List.foldr_cons, List.length_append, h4, ih, List.length_cons]
    ring

theorem foldr_wordBytes_lt (l : List Nat) :
    ∀ b ∈ l.foldr (fun w acc => SHA256.wordBytes w ++ acc) [], b < 256 := by
  induction l with
  | nil => simp
  | cons x xs ih =>
    intro b hb
    rw [List.foldr_cons] at hb
    rcases List.mem_append.mp hb with h | h
    · simp only [SHA256.wordBytes, List.mem_cons, List.not_mem_nil, or_false] at h
      rcases h with h | h | h | h <;>
        (subst h; exact Nat.mod_lt _ (by norm_num))
    · exact ih b h

theorem sha256_length (m : List Nat) : (SHA256.sha256 m).length = 32 := by
  have h8 : (SHA256.H0).length = 8 := by decide
  have := foldl_compress_length
    (SHA256.blocks ((SHA256.pad m).length / 64) (SHA256.pad m)) SHA256.H0 h8
  simp only [SHA256.sha256]
  rw [foldr_wordBytes_length, this]

theorem sha256_lt (m : List Nat) : ∀ b ∈ SHA256.sha256 m, b < 256 := by
  intro b hb
  exact foldr_wordBytes_lt _ b hb

theorem bytesToHex_data (bs : List Nat) :
    (bytesToHex bs).data = bs.foldr (fun b acc => byteHex b ++ acc) [] := rfl

theorem bytesToHex_length (bs : List Nat) :
    (bytesToHex bs).length = 2 * bs.length := by
  show (bytesToHex bs).data.length = 2 * bs.length
  rw [bytesToHex_data]
  induction bs with
  | nil => simp
  | cons b t ih =>
    have h2 : (byteHex b).length = 2 := rfl
    rw [List.foldr_cons, List.length_append, h2, ih, List.length_cons]
    ring

theorem hexDigitChar_mem_lowercase : ∀ n, n < 16 → hexDigitChar n ∈ lowercaseHexChars := by
  decide

theorem bytesToHex_mem_lowercase (bs : List Nat) (hb : ∀ b ∈ bs, b < 256) :
    ∀ c ∈ (bytesToHex bs).data, c ∈ lowercaseHexChars := by
  rw [bytesToHex_data]
  induction bs with
  | nil => simp
  | cons b t ih =>
    intro c hc
    simp only [List.foldr_cons, byteHex, List.cons_append, List.nil_append,
      List.mem_cons] at hc
    have hblt : b < 256 := hb b (List.mem_cons_self b t)
    rcases hc with h | h | h
    · subst h; exact hexDigitChar_mem_lowercase _ (Nat.div_lt_of_lt_mul (by omega))
    · subst h; exact hexDigitChar_mem_lowercase _ (Nat.mod_lt _ (by omega))
    · exact ih (fun x hx => hb x (List.mem_cons_of_mem _ hx)) c h

theorem fromHexChar_hexDigitChar : ∀ n, n < 16 → fromHexChar (hexDigitChar n) = some n := by
  decide

theorem hexDecodeChars_encode :
    ∀ (bs : List Nat), (∀ b ∈ bs, b < 256) →
      hexDecodeChars (bs.foldr (fun b acc => byteHex b ++ acc) []) = (bs, none) := by
  intro bs
  induction bs with
  | nil => intro _; rfl
  | cons b t ih =>
    intro hb
    have hblt : b < 256 := hb b (List.mem_cons_self b t)
    have hdiv : b / 16 < 16 := Nat.div_lt_of_lt_mul (by omega)
    have hmod : b % 16 < 16 := Nat.mod_lt _ (by omega)
    have ht := ih (fun x hx => hb x (List.mem_cons_of_mem _ hx))
    rw [List.foldr_cons]
    show hexDecodeChars (hexDigitChar (b / 16) :: hexDigitChar (b % 16) ::
      t.foldr (fun b acc => byteHex b ++ acc) []) = (b :: t, none)
    simp only [hexDecodeChars, fromHexChar_hexDigitChar _ hdiv,
      fromHexChar_hexDigitChar _ hmod, ht]
    have hb16 : b / 16 * 16 + b % 16 = b := by omega
    simp [hb16]

theorem hexDecodeString_bytesToHex (bs : List Nat) (hb : ∀ b ∈ bs, b < 256) :
    hexDecodeString (bytesToHex bs) = (bs, none) := by
  show hexDecodeChars (bytesToHex bs).data = (bs, none)
  rw [bytesToHex_data]
  exact hexDecodeChars_encode bs hb

theorem fromHexChar_lt (c : Char) (a : Nat) (h : fromHexChar c = some a) : a < 16 := by
  simp only [fromHexChar] at h
  split_ifs at h <;> (injection h with h; omega)

theorem hexDecodeChars_fst_lt :
    ∀ (cs : List Char), ∀ b ∈ (hexDecodeChars cs).1, b < 256
  | [] => by simp [hexDecodeChars]
  | [c] => by simp [hexDecodeChars]
  | p :: q :: rest => by
    intro b hb
    simp only [hexDecodeChars] at hb
    cases hp : fromHexChar p with
    | none => simp [hp] at hb
    | some a =>
      cases hq : fromHexChar q with
      | none => simp [hp, hq] at hb
      | some a2 =>
        simp only [hp, hq, List.mem_cons] at hb
        rcases hb with h | h
        · have h1 := fromHexChar_lt p a hp
          have h2 := fromHexChar_lt q a2 hq
          omega
        · exact hexDecodeChars_fst_lt rest b h

theorem hexDecodeString_fst_lt (s : String) : ∀ b ∈ (hexDecodeString s).1, b < 256 :=
  hexDecodeChars_fst_lt s.data

theorem dropWhile_dropWhile {α : Type} (p : α → Bool) (l : List α) :
    (l.dropWhile p).dropWhile p = l.dropWhile p := by
  induction l with
  | nil => simp
  | cons a t ih =>
    by_cases h : p a
    · simp [List.dropWhile_cons, h, ih]
    · simp [List.dropWhile_cons, h]

theorem dropWhile_eq_self_head {α : Type} (p : α → Bool) (a : α) (t : List α)
    (h : (a :: t).dropWhile p = a :: t) : p a = false := by
  by_contra hne
  have hpa : p a = true := by
    cases hh : p a
    · exact absurd hh hne
    · rfl
  rw [List.dropWhile_cons, hpa] at h
  simp only [if_true] at h
  have hle : (t.dropWhile p).length ≤ t.length :=
    (List.dropWhile_suffix p).length_le
  have hlen := congrArg List.length h
  simp only [List.length_cons] at hlen
  omega

/-- Dropping a suffix preserves the no-leading-match property. -/
theorem dropWhile_eq_self_of_front {α : Type} (p : α → Bool) (l m : List α)
    (hpre : m <+: l) (h : l.dropWhile p = l) : m.dropWhile p = m := by
  cases l with
  | nil =>
    have : m = [] := Iff.mp List.prefix_nil hpre
    simp [this]
  | cons a t =>
    cases m with
    | nil => simp
    | cons b u =>
      have hab : b = a ∧ u <+: t := Iff.mp List.cons_prefix_cons hpre
      have hpa : p a = false := dropWhile_eq_self_head p a t h
      rw [List.dropWhile_cons, hab.1, hpa]
      simp

theorem trimSpace_data (s : String) :
    (trimSpace s).data =
      ((s.data.dropWhile isSpaceByte).reverse.dropWhile isSpaceByte).reverse := rfl

theorem trimSpace_idem (s : String) : trimSpace (trimSpace s) = trimSpace s := by
  apply String.ext
  simp only [trimSpace_data]
  set d := s.data with hd
  set m := d.dropWhile isSpaceByte with hm
  set r := (m.reverse.dropWhile isSpaceByte).reverse with hr
  have hnoLead : m.dropWhile isSpaceByte = m := by
    rw [hm]; exact dropWhile_dropWhile _ _
  have hpre : r <+: m := by
    rw [hr]
    have hsuf : m.reverse.dropWhile isSpaceByte <:+ m.reverse :=
      List.dropWhile_suffix isSpaceByte
    have hp := Iff.mpr List.reverse_prefix hsuf
    simpa using hp
  have h1 : r.dropWhile isSpaceByte = r :=
    dropWhile_eq_self_of_front _ m r hpre hnoLead
  rw [h1]
  have h2 : r.reverse.dropWhile isSpaceByte = r.reverse := by
    rw [hr, List.reverse_reverse]
    exact dropWhile_dropWhile _ _
  rw [h2]
  simp

theorem GenerateKeyId_eq (k : Key) :
    GenerateKeyId k = .ok { k with KeyId := keyIdOf k } := rfl

theorem keyIdOf_congr (k1 k2 : Key)
    (ht : k1.KeyType = k2.KeyType) (hs : k1.Scheme = k2.Scheme)
    (ha : k1.KeyIdHashAlgorithms = k2.KeyIdHashAlgorithms)
    (hp : k1.KeyVal.Public = k2.KeyVal.Public) :
    keyIdOf k1 = keyIdOf k2 := by
  have hpay : keyIdPayload k1 = keyIdPayload k2 := by
    simp [keyIdPayload, ht, hs, ha, hp]
  simp [keyIdOf, hpay]

/-! ## Claims -/

/-- C1: `GenerateKeyId` assigns identical key ids to any two keys that
agree on `key_type`, `scheme`, `key_id_hash_algorithms` and
`key_val.public`, regardless of their `key_val.private` values and of
any pre-existing `key_id`: the key id never depends on private
material. -/
theorem C1_keyid_independent_of_private (k1 k2 : Key)
    (ht : k1.KeyType = k2.KeyType) (hs : k1.Scheme = k2.Scheme)
    (ha : k1.KeyIdHashAlgorithms = k2.KeyIdHashAlgorithms)
    (hp : k1.KeyVal.Public = k2.KeyVal.Public) :
    ∃ r1 r2, GenerateKeyId k1 = .ok r1 ∧ GenerateKeyId k2 = .ok r2 ∧
      r1.KeyId = r2.KeyId := by
  refine ⟨_, _, GenerateKeyId_eq k1, GenerateKeyId_eq k2, ?_⟩
  simpa using keyIdOf_congr k1 k2 ht hs ha hp

/-- Witness for C1 at two concrete keys that differ exactly in
`key_val.private` and in the pre-existing `key_id`. -/
theorem C1_witness :
    ∃ r1 r2,
      GenerateKeyId { KeyId := "old", KeyIdHashAlgorithms := ["sha256", "sha512"], KeyType := "ed25519", Scheme := "ed25519", KeyVal := { Private := "aaaa", Public := "bbbb" } } = .ok r1 ∧
      GenerateKeyId { KeyId := "", KeyIdHashAlgorithms := ["sha256", "sha512"], KeyType := "ed25519", Scheme := "ed25519", KeyVal := { Private := "cccc", Public := "bbbb" } } = .ok r2 ∧
      r1.KeyId = r2.KeyId :=
  C1_keyid_independent_of_private _ _ rfl rfl rfl rfl

/-- C2: `GenerateKeyId` computes the key identity exactly by building
the four-entry partial key map, canonicalizing it, hashing the
canonical bytes with SHA-256 and storing the digest in `key_id` as a
64-character lowercase-hex string, touching no other field. -/
theorem C2_keyid_algorithm (k : Key) :
    ∃ canonical r,
      EncodeCanonical (keyIdPayload k) = .ok canonical ∧
      GenerateKeyId k = .ok r ∧
      r.KeyId = bytesToHex (SHA256.sha256 canonical) ∧
      r.KeyIdHashAlgorithms = k.KeyIdHashAlgorithms ∧
      r.KeyType = k.KeyType ∧ r.Scheme = k.Scheme ∧ r.KeyVal = k.KeyVal ∧
      r.KeyId.length = 64 ∧
      ∀ c ∈ r.KeyId.data, c ∈ lowercaseHexChars := by
  refine ⟨_, _, rfl, GenerateKeyId_eq k, rfl, rfl, rfl, rfl, rfl, ?_, ?_⟩
  · show (keyIdOf k).length = 64
    rw [keyIdOf, bytesToHex_length, sha256_length]
  · show ∀ c ∈ (keyIdOf k).data, c ∈ lowercaseHexChars
    rw [keyIdOf]
    exact bytesToHex_mem_lowercase _ (sha256_lt _)

/-- C9: a decoded key object whose `keytype` or `scheme` differs from
"ed25519" is rejected by both Ed25519 parsers with the key-type error,
never coerced or accepted. -/
theorem C9_wrong_keytype_rejected (dec : String → Except String Key) (s : String)
    (k0 : Key) (hdec : dec s = .ok k0)
    (hkt : k0.KeyType ≠ "ed25519" ∨ k0.Scheme ≠ "ed25519") :
    ParseEd25519FromPrivateJSON dec s = .error notEd25519Msg ∧
    ParseEd25519FromPublicJSON dec s = .error notEd25519Msg := by
  constructor
  · simp only [ParseEd25519FromPrivateJSON, hdec]
    rw [if_pos hkt]
  · simp only [ParseEd25519FromPublicJSON, hdec]
    rw [if_pos hkt]

/-- Witness for C9 at a decoded object with `keytype = "rsa"`. -/
theorem C9_witness :
    ParseEd25519FromPrivateJSON (fun _ => .ok { KeyId := "id", KeyIdHashAlgorithms := ["sha256"], KeyType := "rsa", Scheme := "rsassa-pss-sha256", KeyVal := { Private := "aa", Public := "bb" } }) "x" = .error notEd25519Msg ∧
    ParseEd25519FromPublicJSON (fun _ => .ok { KeyId := "id", KeyIdHashAlgorithms := ["sha256"], KeyType := "rsa", Scheme := "rsassa-pss-sha256", KeyVal := { Private := "aa", Public := "bb" } }) "x" = .error notEd25519Msg :=
  C9_wrong_keytype_rejected _ "x" _ rfl (by simp)

/-- C4: `ParseEd25519FromPrivateJSON` only ever accepts keys whose
private value is exactly 64 hex characters, and on an ed25519-typed
object whose private value is non-hex or of another length it fails
with one of the two format errors. -/
theorem C4_private_must_be_64_hex (dec : String → Except String Key) (s : String) :
    (∀ k, ParseEd25519FromPrivateJSON dec s = .ok k →
      k.KeyVal.Private.length = 64 ∧ k.KeyVal.Private.data.all isHexChar = true) ∧
    (∀ k0, dec s = .ok k0 → k0.KeyType = "ed25519" → k0.Scheme = "ed25519" →
      ¬(k0.KeyVal.Private.length = 64 ∧ k0.KeyVal.Private.data.all isHexChar = true) →
      ParseEd25519FromPrivateJSON dec s = .error invalidHexMsg ∨
      ParseEd25519FromPrivateJSON dec s = .error privateMalformedMsg) := by
  have hgenIf : ∀ keyObj : Key,
      (if keyObj.KeyId = "" then GenerateKeyId keyObj else .ok keyObj) =
        .ok (if keyObj.KeyId = "" then { keyObj with KeyId := keyIdOf keyObj } else keyObj) := by
    intro keyObj
    by_cases hid : keyObj.KeyId = ""
    · rw [if_pos hid, if_pos hid, GenerateKeyId_eq]
    · rw [if_neg hid, if_neg hid]
  constructor
  · intro k hk
    simp only [ParseEd25519FromPrivateJSON] at hk
    cases hdec : dec s with
    | error e => rw [hdec] at hk; simp at hk
    | ok keyObj =>
      simp only [hdec] at hk
      by_cases hkt : keyObj.KeyType ≠ "ed25519" ∨ keyObj.Scheme ≠ "ed25519"
      · rw [if_pos hkt] at hk; simp at hk
      · rw [if_neg hkt] at hk
        simp only [hgenIf keyObj] at hk
        set k2 := if keyObj.KeyId = "" then { keyObj with KeyId := keyIdOf keyObj } else keyObj
          with hk2def
        by_cases hv : validHexString k2.KeyVal.Private
        · have hvp : validatePrivateKey k2 = .ok () := by
            unfold validatePrivateKey; rw [if_pos hv]
          simp only [hvp] at hk
          by_cases hl : k2.KeyVal.Private.length ≠ 64
          · rw [if_pos hl] at hk; simp at hk
          · rw [if_neg hl] at hk
            have hkk : k2 = k := by simpa using hk
            push_neg at hl
            rw [← hkk]
            refine ⟨hl, ?_⟩
            simp only [validHexString, Bool.and_eq_true] at hv
            exact hv.2
        · have hvp : validatePrivateKey k2 = .error invalidHexMsg := by
            unfold validatePrivateKey; rw [if_neg hv]
          simp only [hvp] at hk
          simp at hk
  · intro k0 hdec hkt hsc hbad
    simp only [ParseEd25519FromPrivateJSON, hdec]
    have hne : ¬(k0.KeyType ≠ "ed25519" ∨ k0.Scheme ≠ "ed25519") := by
      simp [hkt, hsc]
    rw [if_neg hne]
    simp only [hgenIf k0]
    set k2 := if k0.KeyId = "" then { k0 with KeyId := keyIdOf k0 } else k0 with hk2def
    have hkv : k2.KeyVal = k0.KeyVal := by
      rw [hk2def]
      by_cases hid : k0.KeyId = ""
      · rw [if_pos hid]
      · rw [if_neg hid]
    by_cases hv : validHexString k2.KeyVal.Private
    · have hvp : validatePrivateKey k2 = .ok () := by
        unfold validatePrivateKey; rw [if_pos hv]
      simp only [hvp]
      have hlen : k2.KeyVal.Private.length ≠ 64 := by
        intro h64
        apply hbad
        constructor
        · rw [← hkv]; exact h64
        · simp only [validHexString, Bool.and_eq_true] at hv
          rw [← hkv]; exact hv.2
      rw [if_pos hlen]
      right
      rfl
    · have hvp : validatePrivateKey k2 = .error invalidHexMsg := by
        unfold validatePrivateKey; rw [if_neg hv]
      simp only [hvp]
      exact Or.inl trivial

/-- Witness for C4 at a concrete decoded ed25519 object whose private
value has length 64 but contains a non-hex character. -/
theorem C4_witness :
    (∀ k, ParseEd25519FromPrivateJSON (fun _ => .ok { KeyId := "id", KeyIdHashAlgorithms := ["sha256"], KeyType := "ed25519", Scheme := "ed25519", KeyVal := { Private := String.mk (List.replicate 64 'z'), Public := "bb" } }) "x" = .ok k →
      k.KeyVal.Private.length = 64 ∧ k.KeyVal.Private.data.all isHexChar = true) ∧
    (ParseEd25519FromPrivateJSON (fun _ => .ok { KeyId := "id", KeyIdHashAlgorithms := ["sha256"], KeyType := "ed25519", Scheme := "ed25519", KeyVal := { Private := String.mk (List.replicate 64 'z'), Public := "bb" } }) "x" = .error invalidHexMsg ∨
     ParseEd25519FromPrivateJSON (fun _ => .ok { KeyId := "id", KeyIdHashAlgorithms := ["sha256"], KeyType := "ed25519", Scheme := "ed25519", KeyVal := { Private := String.mk (List.replicate 64 'z'), Public := "bb" } }) "x" = .error privateMalformedMsg) := by
  constructor
  · exact (C4_private_must_be_64_hex _ "x").1
  · exact (C4_private_must_be_64_hex _ "x").2 _ rfl rfl rfl (by decide)

/-- C6: `GenerateRSASignature` and `VerifyRSASignature` both operate on
the SHA-256 digest of the input bytes and call the PSS primitive with
SHA-256 as the digest/MGF hash and the salt length fixed to exactly 32
bytes. -/
theorem C6_pss_parameters {Pub Priv : Type} (ext : RSAExt Pub Priv)
    (signable data : List Nat) (key : Key) (sig : Signature) :
    (∀ priv, ext.parsePrivPEM key.KeyVal.Private = .ok priv →
      GenerateRSASignature ext signable key =
        match ext.signPSS priv HashAlg.SHA256 (SHA256.sha256 signable)
            { SaltLength := 32, Hash := HashAlg.SHA256 } with
        | .error e => .error e
        | .ok buf => .ok { KeyId := key.KeyId, Sig := bytesToHex buf }) ∧
    (∀ pub, ext.parsePubPEM key.KeyVal.Public = .ok pub →
      VerifyRSASignature ext key sig data =
        match ext.verifyPSS pub HashAlg.SHA256 (SHA256.sha256 data)
            (hexDecodeString sig.Sig).1 { SaltLength := 32, Hash := HashAlg.SHA256 } with
        | .error e => .error e
        | .ok _ => .ok ()) := by
  constructor
  · intro priv hp
    simp only [GenerateRSASignature, hp, sha256Size]
  · intro pub hp
    simp only [VerifyRSASignature, hp, sha256Size]

/-- Witness for C6 at concrete externals, key, signature and data. -/
theorem C6_witness :
    (GenerateRSASignature trivialRSAExt [5] emptyKey =
      match trivialRSAExt.signPSS () HashAlg.SHA256 (SHA256.sha256 [5])
          { SaltLength := 32, Hash := HashAlg.SHA256 } with
      | .error e => .error e
      | .ok buf => .ok { KeyId := emptyKey.KeyId, Sig := bytesToHex buf }) ∧
    (VerifyRSASignature trivialRSAExt emptyKey { KeyId := "k", Sig := "ab" } [5] =
      match trivialRSAExt.verifyPSS () HashAlg.SHA256 (SHA256.sha256 [5])
          (hexDecodeString "ab").1 { SaltLength := 32, Hash := HashAlg.SHA256 } with
      | .error e => .error e
      | .ok _ => .ok ()) :=
  ⟨(C6_pss_parameters trivialRSAExt [5] [5] emptyKey { KeyId := "k", Sig := "ab" }).1 () rfl,
   (C6_pss_parameters trivialRSAExt [5] [5] emptyKey { KeyId := "k", Sig := "ab" }).2 () rfl⟩

/-- C7: for a 32-byte-seed-derived Ed25519 key (private = hex of the
seed, public = hex of the public half of the expanded key), verifying
the signature produced by `GenerateEd25519Signature` succeeds, given
that the external primitive verifies its own signatures. -/
theorem C7_ed25519_roundtrip (impl : Ed25519Impl) (seed m : List Nat) (key : Key)
    (hslen : seed.length = 32) (hsbytes : ∀ b ∈ seed, b < 256)
    (hklen : (impl.newKeyFromSeed seed).length = 64)
    (hkbytes : ∀ b ∈ impl.newKeyFromSeed seed, b < 256)
    (hsigbytes : ∀ b ∈ impl.sign (impl.newKeyFromSeed seed) m, b < 256)
    (hpriv : key.KeyVal.Private = bytesToHex seed)
    (hpub : key.KeyVal.Public = bytesToHex ((impl.newKeyFromSeed seed).drop 32))
    (hcorrect : impl.verify ((impl.newKeyFromSeed seed).drop 32) m
      (impl.sign (impl.newKeyFromSeed seed) m) = true) :
    ∃ sig, GenerateEd25519Signature impl m key = .ok sig ∧
      VerifyEd25519Signature impl key sig m = .ok () := by
  have hdecPriv : hexDecodeString key.KeyVal.Private = (seed, none) := by
    rw [hpriv]; exact hexDecodeString_bytesToHex seed hsbytes
  have hgen : GenerateEd25519Signature impl m key =
      .ok { KeyId := key.KeyId, Sig := bytesToHex (impl.sign (impl.newKeyFromSeed seed) m) } := by
    simp only [GenerateEd25519Signature, hdecPriv]
    rw [if_neg (by omega)]
  refine ⟨_, hgen, ?_⟩
  have hdropbytes : ∀ b ∈ (impl.newKeyFromSeed seed).drop 32, b < 256 := by
    intro b hb; exact hkbytes b (List.mem_of_mem_drop hb)
  have hdecPub : hexDecodeString key.KeyVal.Public =
      ((impl.newKeyFromSeed seed).drop 32, none) := by
    rw [hpub]; exact hexDecodeString_bytesToHex _ hdropbytes
  have hdecSig : hexDecodeString (bytesToHex (impl.sign (impl.newKeyFromSeed seed) m)) =
      (impl.sign (impl.newKeyFromSeed seed) m, none) :=
    hexDecodeString_bytesToHex _ hsigbytes
  have hlen32 : ((impl.newKeyFromSeed seed).drop 32).length = 32 := by
    rw [List.length_drop, hklen]
  simp only [VerifyEd25519Signature, hdecPub, hdecSig]
  rw [if_neg (by omega), if_pos hcorrect]

/-- Witness for C7 at the concrete primitive, the zero seed and a
two-byte payload. -/
theorem C7_witness :
    ∃ sig, GenerateEd25519Signature trivialEd25519Impl [1, 2] { KeyId := "kid", KeyIdHashAlgorithms := [], KeyType := "ed25519", Scheme := "ed25519", KeyVal := { Private := bytesToHex (List.replicate 32 0), Public := bytesToHex ((trivialEd25519Impl.newKeyFromSeed (List.replicate 32 0)).drop 32) } } = .ok sig ∧
      VerifyEd25519Signature trivialEd25519Impl { KeyId := "kid", KeyIdHashAlgorithms := [], KeyType := "ed25519", Scheme := "ed25519", KeyVal := { Private := bytesToHex (List.replicate 32 0), Public := bytesToHex ((trivialEd25519Impl.newKeyFromSeed (List.replicate 32 0)).drop 32) } } sig [1, 2] = .ok () :=
  C7_ed25519_roundtrip trivialEd25519Impl (List.replicate 32 0) [1, 2] _
    (by decide) (by decide) (by decide) (by decide) (by decide) rfl rfl (by decide)

/-- Counterexample to C3 as stated: a malformed signature hex whose
successfully decoded prefix is a valid signature makes
`VerifyRSASignature` return success — the hex-decode error is discarded
by the source (`sigHex, _ := hex.DecodeString(sig.Sig)`), so a
malformed signature is neither always rejected nor reported as a
distinct error kind. -/
theorem C3_counterexample :
    (hexDecodeString "abzz").2 ≠ none ∧
    VerifyRSASignature trivialRSAExt emptyKey { KeyId := "kid", Sig := "abzz" } [] = .ok () := by
  exact ⟨by decide, rfl⟩

/-- C3 amended: `VerifyRSASignature` silently discards the hex-decode
error and behaves on any signature exactly as it does on the well-formed
hex encoding of the successfully decoded prefix; a malformed signature
may therefore verify successfully, and malformed input is never
surfaced as a distinct error kind. -/
theorem C3_decode_error_discarded {Pub Priv : Type} (ext : RSAExt Pub Priv)
    (key : Key) (sig : Signature) (data : List Nat) :
    VerifyRSASignature ext key sig data =
      VerifyRSASignature ext key
        { KeyId := sig.KeyId, Sig := bytesToHex (hexDecodeString sig.Sig).1 } data := by
  simp only [VerifyRSASignature,
    hexDecodeString_bytesToHex _ (hexDecodeString_fst_lt sig.Sig)]

/-- Counterexample to C10 as stated: with a valid-hex public value that
decodes to 31 bytes but a malformed signature hex, the function returns
the hex error without ever invoking the verification primitive — so a
wrong-length public key does not always abort. -/
theorem C10_counterexample :
    (hexDecodeString (String.mk (List.replicate 62 '0'))).2 = none ∧
    (hexDecodeString (String.mk (List.replicate 62 '0'))).1.length ≠ 32 ∧
    VerifyEd25519Signature trivialEd25519Impl { KeyId := "", KeyIdHashAlgorithms := [], KeyType := "ed25519", Scheme := "ed25519", KeyVal := { Private := "", Public := String.mk (List.replicate 62 '0') } } { KeyId := "", Sig := "zz" } [] = .err hexInvalidByteMsg := by
  exact ⟨by decide, by decide, rfl⟩

/-- C10 amended: whenever the public value is valid hex decoding to a
length other than 32 AND the signature hex also decodes cleanly,
`VerifyEd25519Signature` reaches the Ed25519 primitive, which aborts on
the wrong-length public key instead of returning an error. -/
theorem C10_bad_public_length_aborts (impl : Ed25519Impl) (key : Key) (sig : Signature)
    (data pubHex sigHex : List Nat)
    (hpub : hexDecodeString key.KeyVal.Public = (pubHex, none))
    (hlen : pubHex.length ≠ 32)
    (hsig : hexDecodeString sig.Sig = (sigHex, none)) :
    VerifyEd25519Signature impl key sig data = .aborted badPubLenMsg := by
  simp only [VerifyEd25519Signature, hpub, hsig]
  rw [if_pos hlen]

/-- Witness for C10 at a 62-hex-character public value and an empty
(validly decoding) signature hex. -/
theorem C10_witness :
    VerifyEd25519Signature trivialEd25519Impl { KeyId := "", KeyIdHashAlgorithms := [], KeyType := "ed25519", Scheme := "ed25519", KeyVal := { Private := "", Public := String.mk (List.replicate 62 '0') } } { KeyId := "", Sig := "" } [] = .aborted badPubLenMsg :=
  C10_bad_public_length_aborts trivialEd25519Impl _ _ [] (List.replicate 31 0) []
    (by decide) (by decide) rfl

theorem withClose_none (fa : FileAccess) (body : Key × Option String)
    (h : fa.closeErr = none) : withClose fa body = body := by
  simp [withClose, h]

/-- Counterexample to C5 as stated: when everything succeeds but the
deferred file close fails, `LoadRSAPublicKey` returns the close error
while the receiver has already been overwritten — an error return with
the Key's fields changed. -/
theorem C5_counterexample :
    ((LoadRSAPublicKey trivialRSAExt { openRes := .ok (), readRes := .ok "PEM", closeErr := some "close failed" } emptyKey).2 = some "close failed") ∧
    ((LoadRSAPublicKey trivialRSAExt { openRes := .ok (), readRes := .ok "PEM", closeErr := some "close failed" } emptyKey).1.KeyType ≠ emptyKey.KeyType) := by
  exact ⟨rfl, by decide⟩

/-- C5 amended: each loader fails fast and, provided the deferred file
close succeeds, an error return leaves the target Key unchanged (no
partial result); the only exception is a failing close after an
otherwise successful load, which returns the close error with the Key
fully loaded. -/
theorem C5_error_leaves_key_unchanged {Pub Priv : Type} (ext : RSAExt Pub Priv)
    (dec : String → Except String Key) (fa : FileAccess) (k : Key)
    (hclose : fa.closeErr = none) :
    ((LoadRSAPublicKey ext fa k).2 ≠ none → (LoadRSAPublicKey ext fa k).1 = k) ∧
    ((LoadRSAPrivateKey ext fa k).2 ≠ none → (LoadRSAPrivateKey ext fa k).1 = k) ∧
    ((LoadEd25519PublicKey dec fa k).2 ≠ none → (LoadEd25519PublicKey dec fa k).1 = k) ∧
    ((LoadEd25519PrivateKey dec fa k).2 ≠ none → (LoadEd25519PrivateKey dec fa k).1 = k) := by
  refine ⟨?_, ?_, ?_, ?_⟩
  · intro herr
    cases ho : fa.openRes with
    | error e => simp only [LoadRSAPublicKey, ho]
    | ok u =>
      cases hr : fa.readRes with
      | error e => simp only [LoadRSAPublicKey, ho, hr, withClose, hclose]
      | ok content =>
        cases hp : ext.parsePubPEM content with
        | error e => simp only [LoadRSAPublicKey, ho, hr, hp, withClose, hclose]
        | ok v =>
          simp only [LoadRSAPublicKey, ho, hr, hp, withClose, hclose,
            GenerateKeyId_eq] at herr
          simp at herr
  · intro herr
    cases ho : fa.openRes with
    | error e => simp only [LoadRSAPrivateKey, ho]
    | ok u =>
      cases hr : fa.readRes with
      | error e => simp only [LoadRSAPrivateKey, ho, hr, withClose, hclose]
      | ok content =>
        cases hp : ext.parsePrivPEM content with
        | error e => simp only [LoadRSAPrivateKey, ho, hr, hp, withClose, hclose]
        | ok v =>
          cases hm : ext.marshalPKIX v with
          | error e => simp only [LoadRSAPrivateKey, ho, hr, hp, hm, withClose, hclose]
          | ok der =>
            simp only [LoadRSAPrivateKey, ho, hr, hp, hm, withClose, hclose,
              GenerateKeyId_eq] at herr
            simp at herr
  · intro herr
    cases ho : fa.openRes with
    | error e => simp only [LoadEd25519PublicKey, ho]
    | ok u =>
      cases hr : fa.readRes with
      | error e => simp only [LoadEd25519PublicKey, ho, hr, withClose, hclose]
      | ok content =>
        cases hp : ParseEd25519FromPublicJSON dec content with
        | error e => simp only [LoadEd25519PublicKey, ho, hr, hp, withClose, hclose]
        | ok keyObj =>
          simp only [LoadEd25519PublicKey, ho, hr, hp, withClose, hclose] at herr
          simp at herr
  · intro herr
    cases ho : fa.openRes with
    | error e => simp only [LoadEd25519PrivateKey, ho]
    | ok u =>
      cases hr : fa.readRes with
      | error e => simp only [LoadEd25519PrivateKey, ho, hr, withClose, hclose]
      | ok content =>
        cases hp : ParseEd25519FromPrivateJSON dec content with
        | error e => simp only [LoadEd25519PrivateKey, ho, hr, hp, withClose, hclose]
        | ok keyObj =>
          simp only [LoadEd25519PrivateKey, ho, hr, hp, withClose, hclose] at herr
          simp at herr

/-- Witness for C5: with a failing read and a succeeding close, all
four loaders return the read error and leave the Key unchanged. -/
theorem C5_witness :
    ((LoadRSAPublicKey trivialRSAExt { openRes := .ok (), readRes := .error "read failed", closeErr := none } emptyKey).1 = emptyKey) ∧
    ((LoadRSAPrivateKey trivialRSAExt { openRes := .ok (), readRes := .error "read failed", closeErr := none } emptyKey).1 = emptyKey) ∧
    ((LoadEd25519PublicKey (fun _ => .error "bad json") { openRes := .ok (), readRes := .error "read failed", closeErr := none } emptyKey).1 = emptyKey) ∧
    ((LoadEd25519PrivateKey (fun _ => .error "bad json") { openRes := .ok (), readRes := .error "read failed", closeErr := none } emptyKey).1 = emptyKey) := by
  have h := C5_error_leaves_key_unchanged trivialRSAExt (fun _ => .error "bad json")
    { openRes := .ok (), readRes := .error "read failed", closeErr := none } emptyKey rfl
  exact ⟨h.1 (by decide), h.2.1 (by decide), h.2.2.1 (by decide), h.2.2.2 (by decide)⟩

/-- C8: an RSA private PEM loaded via `LoadRSAPrivateKey`, whose derived
public PEM is then loaded via `LoadRSAPublicKey`, yields identical
`key_val.public` and identical `key_id`; `load_public` preserves the
(trimmed) file text while `load_private` normalizes through the
DER/PEM re-encoding, and trimming is idempotent. -/
theorem C8_private_then_public_same_key {Pub Priv : Type} (ext : RSAExt Pub Priv)
    (fa1 fa2 : FileAccess) (k0 k0' : Key) (content : String) (priv : Priv)
    (der : List Nat) (pub : Pub)
    (h1open : fa1.openRes = .ok ()) (h1read : fa1.readRes = .ok content)
    (h1close : fa1.closeErr = none)
    (hparse : ext.parsePrivPEM content = .ok priv)
    (hmarshal : ext.marshalPKIX priv = .ok der)
    (h2open : fa2.openRes = .ok ()) (h2close : fa2.closeErr = none)
    (h2read : fa2.readRes = .ok (LoadRSAPrivateKey ext fa1 k0).1.KeyVal.Public)
    (hpubparse : ext.parsePubPEM (LoadRSAPrivateKey ext fa1 k0).1.KeyVal.Public = .ok pub) :
    (LoadRSAPrivateKey ext fa1 k0).2 = none ∧
    (LoadRSAPublicKey ext fa2 k0').2 = none ∧
    (LoadRSAPublicKey ext fa2 k0').1.KeyVal.Public =
      (LoadRSAPrivateKey ext fa1 k0).1.KeyVal.Public ∧
    (LoadRSAPublicKey ext fa2 k0').1.KeyId = (LoadRSAPrivateKey ext fa1 k0).1.KeyId := by
  set k1 : Key := { k0 with
    KeyType := "rsa",
    KeyVal := { Private := trimSpace content,
                Public := trimSpace (ext.encodePEMPub der) },
    Scheme := "rsassa-pss-sha256",
    KeyIdHashAlgorithms := ["sha256", "sha512"] } with hk1
  have heval1 : LoadRSAPrivateKey ext fa1 k0 = ({ k1 with KeyId := keyIdOf k1 }, none) := by
    simp only [LoadRSAPrivateKey, h1open, h1read, hparse, hmarshal, withClose, h1close,
      GenerateKeyId_eq, hk1]
  have hK1pub : (LoadRSAPrivateKey ext fa1 k0).1.KeyVal.Public =
      trimSpace (ext.encodePEMPub der) := by
    rw [heval1]
  set k2 : Key := { k0' with
    KeyType := "rsa",
    KeyVal := { Private := "",
                Public := trimSpace (LoadRSAPrivateKey ext fa1 k0).1.KeyVal.Public },
    Scheme := "rsassa-pss-sha256",
    KeyIdHashAlgorithms := ["sha256", "sha512"] } with hk2
  have heval2 : LoadRSAPublicKey ext fa2 k0' = ({ k2 with KeyId := keyIdOf k2 }, none) := by
    simp only [LoadRSAPublicKey, h2open, h2read, hpubparse, withClose, h2close,
      GenerateKeyId_eq, hk2]
  have hpubeq : (LoadRSAPublicKey ext fa2 k0').1.KeyVal.Public =
      (LoadRSAPrivateKey ext fa1 k0).1.KeyVal.Public := by
    rw [heval2]
    show k2.KeyVal.Public = (LoadRSAPrivateKey ext fa1 k0).1.KeyVal.Public
    rw [hk2]
    show trimSpace (LoadRSAPrivateKey ext fa1 k0).1.KeyVal.Public =
      (LoadRSAPrivateKey ext fa1 k0).1.KeyVal.Public
    rw [hK1pub, trimSpace_idem]
  refine ⟨by rw [heval1], by rw [heval2], hpubeq, ?_⟩
  rw [heval1, heval2]
  show keyIdOf k2 = keyIdOf k1
  apply keyIdOf_congr
  · rw [hk1, hk2]
  · rw [hk1, hk2]
  · rw [hk1, hk2]
  · show k2.KeyVal.Public = k1.KeyVal.Public
    have hx : k2.KeyVal.Public = (LoadRSAPrivateKey ext fa1 k0).1.KeyVal.Public := by
      rw [hk2]
      show trimSpace (LoadRSAPrivateKey ext fa1 k0).1.KeyVal.Public =
        (LoadRSAPrivateKey ext fa1 k0).1.KeyVal.Public
      rw [hK1pub, trimSpace_idem]
    rw [hx, hK1pub]

/-- Witness for C8 at the concrete externals and a concrete private
PEM text. -/
theorem C8_witness :
    ((LoadRSAPrivateKey trivialRSAExt { openRes := .ok (), readRes := .ok " PRIVPEM ", closeErr := none } emptyKey).2 = none) ∧
    ((LoadRSAPublicKey trivialRSAExt { openRes := .ok (), readRes := .ok (LoadRSAPrivateKey trivialRSAExt { openRes := .ok (), readRes := .ok " PRIVPEM ", closeErr := none } emptyKey).1.KeyVal.Public, closeErr := none } emptyKey).2 = none) ∧
    ((LoadRSAPublicKey trivialRSAExt { openRes := .ok (), readRes := .ok (LoadRSAPrivateKey trivialRSAExt { openRes := .ok (), readRes := .ok " PRIVPEM ", closeErr := none } emptyKey).1.KeyVal.Public, closeErr := none } emptyKey).1.KeyVal.Public = (LoadRSAPrivateKey trivialRSAExt { openRes := .ok (), readRes := .ok " PRIVPEM ", closeErr := none } emptyKey).1.KeyVal.Public) ∧
    ((LoadRSAPublicKey trivialRSAExt { openRes := .ok (), readRes := .ok (LoadRSAPrivateKey trivialRSAExt { openRes := .ok (), readRes := .ok " PRIVPEM ", closeErr := none } emptyKey).1.KeyVal.Public, closeErr := none } emptyKey).1.KeyId = (LoadRSAPrivateKey trivialRSAExt { openRes := .ok (), readRes := .ok " PRIVPEM ", closeErr := none } emptyKey).1.KeyId) :=
  C8_private_then_public_same_key trivialRSAExt
    { openRes := .ok (), readRes := .ok " PRIVPEM ", closeErr := none }
    { openRes := .ok (), readRes := .ok (LoadRSAPrivateKey trivialRSAExt { openRes := .ok (), readRes := .ok " PRIVPEM ", closeErr := none } emptyKey).1.KeyVal.Public, closeErr := none }
    emptyKey emptyKey " PRIVPEM " () [1, 2, 3] ()
    rfl rfl rfl rfl rfl rfl rfl rfl rfl

end InToto
